import Mathlib

/-!
Verification of the ecs-logs message pipeline and syslog transport layer.

The Go sources are embedded shallowly:
* Go byte strings are `List Nat` (one `Nat` per byte) where byte-level
  operations matter (truncation at a byte count), and `List Char` or
  `String` where only character content matters.
* Stateful writer code becomes explicit state passing over a `WriterSt`
  record; the network backend is abstracted as an oracle that says which
  message writes / flushes / dial attempts fail.
* Go's `(value, err)` returns become `Option` / sum types.
-/

namespace EcsLogs

/-! ### Byte strings (Go `string` as a byte sequence) -/

/-- A Go string viewed as its byte sequence. -/
abbrev GoBytes := List Nat

/-- Byte value of `':'`. -/
def colonByte : Nat := 58

/-- Byte value of `'*'`. -/
def starByte : Nat := 42

/-- Byte value of `'/'`. -/
def slashByte : Nat := 47

/-- Go strings.Replace with count -1, for single-byte `old`/`new`:
replaces every occurrence of the byte `old` with `new`. -/
def replaceAllByte (old new : Nat) (s : GoBytes) : GoBytes :=
  s.map fun b => if b = old then new else b

/-! ### journald/reader.go: sanitizeStreamName -/

/-- Function `sanitizeStreamName` from `lib/journald/reader.go`:
replace `:` with `/`, replace `*` with `/`, truncate to 512 bytes. -/
def sanitizeStreamName (name : GoBytes) : GoBytes :=
  let n1 := replaceAllByte colonByte slashByte name
  let n2 := replaceAllByte starByte slashByte n1
  if n2.length > 512 then n2.take 512 else n2

/-- A byte is ASCII-printable when it lies in the range 32..126. -/
def asciiPrintable (b : Nat) : Prop := 32 ≤ b ∧ b ≤ 126

instance (b : Nat) : Decidable (asciiPrintable b) := by
  unfold asciiPrintable; infer_instance

/-! ### syslog/writer.go: newWriterTemplate format normalization -/

/-- The format-string normalization performed by `newWriterTemplate` in
`lib/syslog/writer.go`: if the caller's format does not end in `"\n"`
(Go `strings.HasSuffix`), a single `"\n"` is appended before the template
is parsed. The template's text is modelled as a `List Char`. -/
def newWriterTemplate (format : List Char) : List Char :=
  if List.isSuffixOf ['\n'] format then format else format ++ ['\n']

/-- Number of consecutive `'\n'` characters at the end of a format string. -/
def trailingNewlines (l : List Char) : Nat :=
  (l.reverse.takeWhile fun c => c == '\n').length

/-! ### syslog/writer.go: the writer state machine

The `writer` struct carries its backend and a `dead` flag.  We model the
states the claims speak about: the `dead` flag and the ordered sequence of
messages handed to the backend so far.  The backend's behaviour is an
oracle `fails : α → Option ε` giving the error (if any) that `w.write`
returns for a message, and `flushErr : Option ε` giving the error that
`w.flush` returns. -/

/-- The observable state of a `writer` (`lib/syslog/writer.go`):
its `dead` flag and the messages handed to its backend, in order. -/
structure WriterSt (α : Type) where
  dead : Bool
  written : List α
  deriving DecidableEq, Repr

/-- Method `(*writer).WriteMessageBatch` of `lib/syslog/writer.go`: write each message of the batch in
order; on the first failing write, mark the writer dead and return that
error without touching the rest of the batch; after the whole batch, run
`w.flush()` and on its failure also mark the writer dead. -/
def WriteMessageBatch {α ε : Type} (fails : α → Option ε) (flushErr : Option ε) :
    WriterSt α → List α → WriterSt α × Option ε
  | s, [] =>
    match flushErr with
    | some e => ({ s with dead := true }, some e)
    | none => (s, none)
  | s, m :: rest =>
    match fails m with
    | some e => ({ s with dead := true }, some e)
    | none => WriteMessageBatch fails flushErr { s with written := s.written ++ [m] } rest

/-- Method `(*writer).WriteMessage` of `lib/syslog/writer.go`: write one message; on a write error mark the
writer dead and return it; otherwise flush, and on a flush error mark the
writer dead and return it. -/
def WriteMessage {α ε : Type} (fails : α → Option ε) (flushErr : Option ε)
    (s : WriterSt α) (m : α) : WriterSt α × Option ε :=
  match fails m with
  | some e => ({ s with dead := true }, some e)
  | none =>
    match flushErr with
    | some e => ({ s with dead := true, written := s.written ++ [m] }, some e)
    | none => ({ s with written := s.written ++ [m] }, none)

/-! ### syslog/writer.go: the writer pool and Close -/

/-- Capacity of the global writer pool: `make(chan *writer, 100)`. -/
def writerPoolCap : Nat := 100

/-- What `(*writer).Close` did with the writer. -/
inductive CloseAction
  /-- The underlying backend was closed (`w.backend.Close()`). -/
  | closedBackend
  /-- The writer was put back into the pool for reuse. -/
  | pooled
  deriving DecidableEq, Repr

/-- Method `(*writer).Close` of `lib/syslog/writer.go`: a dead writer closes its backend; otherwise, with
pooling enabled, the writer is offered to the bounded pool (a channel send
that succeeds exactly when the pool holds fewer than `writerPoolCap`
writers) and the backend is closed only if the pool is full; with pooling
disabled the backend is always closed. -/
def close {α : Type} (enablePooling : Bool) (pool : List (WriterSt α))
    (w : WriterSt α) : List (WriterSt α) × CloseAction :=
  if w.dead then (pool, .closedBackend)
  else if enablePooling ∧ pool.length < writerPoolCap then (pool ++ [w], .pooled)
  else (pool, .closedBackend)

/-- Where `NewWriter` got its writer from. -/
inductive AcquireSrc (α : Type)
  /-- A pooled writer was taken from the channel. -/
  | fromPool (w : WriterSt α)
  /-- No pooled writer was available: a fresh writer is dialed. -/
  | fresh
  deriving DecidableEq, Repr

/-- The acquisition step of `NewWriter`: with pooling enabled, take a
writer from the pool when one is available, otherwise dial a fresh one;
with pooling disabled, always dial fresh. -/
def acquire {α : Type} (enablePooling : Bool) (pool : List (WriterSt α)) :
    List (WriterSt α) × AcquireSrc α :=
  if enablePooling then
    match pool with
    | w :: rest => (rest, .fromPool w)
    | [] => ([], .fresh)
  else (pool, .fresh)

/-- Release a list of writers one after another via `Close`, starting from
a given pool, counting how many writers closed their backend. -/
def releaseAll {α : Type} (enablePooling : Bool) :
    List (WriterSt α) × Nat → List (WriterSt α) → List (WriterSt α) × Nat
  | acc, [] => acc
  | (pool, c), w :: ws =>
    match close enablePooling pool w with
    | (pool', CloseAction.closedBackend) => releaseAll enablePooling (pool', c + 1) ws
    | (pool', CloseAction.pooled) => releaseAll enablePooling (pool', c) ws

/-! ### syslog/writer.go: DialWriter candidate selection -/

/-- Go `strings.HasPrefix s p`. -/
def goStartsWith (s p : String) : Bool := List.isPrefixOf p.data s.data

/-- The network/address part of `WriterConfig` that `DialWriter` inspects. -/
structure DialConfig where
  network : String
  address : String
  deriving DecidableEq, Repr

/-- The candidate networks `netopts` computed by `DialWriter`:
an explicitly configured network is used verbatim; else, for an empty
address or one starting with `/`, the candidates are `unixgram` then
`unix`; else the single candidate is `tls`. -/
def netopts (c : DialConfig) : List String :=
  if c.network.length ≠ 0 then [c.network]
  else if c.address.length = 0 ∨ goStartsWith c.address "/" then ["unixgram", "unix"]
  else ["tls"]

/-- The value of `config.Network` after `DialWriter`'s first branch chain
(the local-transport branch overwrites it with `"unix"`); the `addropts`
computation reads this mutated field. -/
def networkAfterNetopts (c : DialConfig) : String :=
  if c.network.length ≠ 0 then c.network
  else if c.address.length = 0 ∨ goStartsWith c.address "/" then "unix"
  else c.network

/-- The candidate addresses `addropts` computed by `DialWriter`:
an explicitly configured address is used alone; else for a unix-family
network the well-known syslogd socket paths are tried; else
`localhost:514`. -/
def addropts (c : DialConfig) : List String :=
  if c.address.length ≠ 0 then [c.address]
  else if goStartsWith (networkAfterNetopts c) "unix" then
    ["/dev/log", "/var/run/syslog", "/var/run/log"]
  else ["localhost:514"]

/-- The ordered list of `(network, address)` candidate pairs that
`DialWriter`'s nested `connect` loops traverse. -/
def dialCandidates (c : DialConfig) : List (String × String) :=
  (netopts c).flatMap fun n => (addropts c).map fun a => (n, a)

/-- How `dialWriter` dials a given network name: the network `"tls"` is
rewritten to `"tcp"` and dialed through `tls.Dial` (a TLS-wrapped stream);
every other network uses a plain `net.Dial`. -/
inductive DialScheme
  /-- `tls.Dial("tcp", addr, config)`: TLS handshake over a TCP stream. -/
  | tlsStream
  /-- `net.Dial(network, addr)`: no TLS wrapping. -/
  | plain (network : String)
  deriving DecidableEq, Repr

/-- The dial function selection at the top of `dialWriter`. -/
def dialScheme (network : String) : DialScheme :=
  if network = "tls" then .tlsStream else .plain network

/-! ### syslog/writer.go: dialWriter retry loop

The `for attempt := 1; true; attempt++` loop dials, breaks on success,
returns the error when `attempt == 3`, and otherwise sleeps 1 second and
retries.  `ok attempt` tells whether the dial at that (1-based) attempt
number succeeds.  The result is the successful attempt number (or `none`
after 3 failures) together with the number of 1-second sleeps taken. -/

/-- The retry loop of `dialWriter`, with `fuel` remaining attempts
(the source allows 3 in total). -/
def dialRetry (ok : Nat → Bool) : Nat → Nat → Option Nat × Nat
  | _, 0 => (none, 0)
  | attempt, fuel + 1 =>
    if ok attempt then (some attempt, 0)
    else if fuel = 0 then (none, 0)
    else
      match dialRetry ok (attempt + 1) fuel with
      | (r, sleeps) => (r, sleeps + 1)

/-- One `dialWriter` call for a single candidate pair: up to 3 total dial
attempts starting at attempt 1, with a 1-second sleep after each failure
except the last. -/
def dialOne (ok : Nat → Bool) : Option Nat × Nat := dialRetry ok 1 3

/-- The `connect` loop of `DialWriter` over the ordered candidate pairs:
each pair runs `dialWriter` (modelled by `dialOne` with that pair's
attempt oracle); the first pair to succeed breaks out of both loops.
Returns the list of pairs actually attempted, in order, and the winning
pair with its successful attempt number (or `none` if all fail). -/
def connectLoop (ok : String × String → Nat → Bool) :
    List (String × String) → List (String × String) × Option ((String × String) × Nat)
  | [] => ([], none)
  | p :: ps =>
    match dialOne (ok p) with
    | (some k, _) => ([p], some (p, k))
    | (none, _) =>
      match connectLoop ok ps with
      | (tried, r) => (p :: tried, r)

/-! ### syslog/writer.go: wire rendering by (*writer).write -/

/-- The fields of a `lib.Message` consumed by `(*writer).write`.
`level` and `pid` are Go `int`s; the event time is abstracted to a value
that the writer's time-format function turns into a string. -/
structure SyslogMsg where
  group : String
  stream : String
  level : Int
  host : String
  id : String
  pid : Int
  time : Nat
  body : String
  deriving DecidableEq, Repr

/-- The template data struct `message` filled in by `(*writer).write`. -/
structure RenderedMsg where
  PRIVAL : Int
  HOSTNAME : String
  PROCID : String
  MSGID : String
  GROUP : String
  STREAM : String
  TAG : String
  MSG : String
  TIMESTAMP : String
  deriving DecidableEq, Repr

/-- The rendering step of `(*writer).write`: the priority value is
`int(Level-1) + 8` (user-level facility); hostname and message id default
to `"-"` when empty; the process id renders as `"-"` when zero and as its
decimal string otherwise.  `fmtTime` is the writer's configured
time-format function and `tag` its configured tag.  The source builds
the struct and then applies the defaults one field at a time; since each
default touches a distinct field and tests only the input message, the
per-field conditional form is the same function. -/
def write (fmtTime : Nat → String) (tag : String) (msg : SyslogMsg) : RenderedMsg :=
  { PRIVAL := (msg.level - 1) + 8
    HOSTNAME := if msg.host.length = 0 then "-" else msg.host
    PROCID := if msg.pid = 0 then "-" else toString msg.pid
    MSGID := if msg.id.length = 0 then "-" else msg.id
    GROUP := msg.group
    STREAM := msg.stream
    TAG := tag
    MSG := msg.body
    TIMESTAMP := fmtTime msg.time }

/-! ### journald/reader.go: getMessage

A journal record is a map from field name to value: `GetDataValue`
returns the value when the field is present and an error otherwise.
Only the group/stream resolution is modelled — the later event-body
enrichment never changes the `(ok, err)` outcome of `getMessage`. -/

/-- A journal record: per field name, the byte-string value when present. -/
abbrev JournalRecord := String → Option GoBytes

/-- Outcome of `(*reader).getMessage`. -/
inductive GetMsgResult
  /-- `ok = false`, `err = nil`: no message, silently skipped. -/
  | skip
  /-- `err != nil`: the fatal "missing CONTAINER_ID_FULL in message with
  CONTAINER_TAG=..." error. -/
  | fatal (tag : GoBytes)
  /-- `ok = true`: a message with the resolved group and sanitized stream. -/
  | msg (group stream : GoBytes)
  deriving DecidableEq, Repr

/-- Method `(*reader).getMessage` of `lib/journald/reader.go`: a record whose `CONTAINER_TAG` is absent or
empty yields no message and no error; otherwise the stream is resolved
from the configured stream field, falling back to `CONTAINER_ID_FULL`,
and when both are missing the fatal malformed-event error is returned;
the resolved stream is passed through `sanitizeStreamName`. -/
def getMessage (streamName : String) (rec : JournalRecord) : GetMsgResult :=
  match rec "CONTAINER_TAG" with
  | none => .skip
  | some g =>
    if g.length = 0 then .skip
    else
      match rec streamName with
      | some s => .msg g (sanitizeStreamName s)
      | none =>
        match rec "CONTAINER_ID_FULL" with
        | some s => .msg g (sanitizeStreamName s)
        | none => .fatal g

/-! ### lib log-call adapter: LogHandler.HandleLog -/

/-- The parts of the adapter's event that `HandleLog` enriches. -/
structure AdapterEvent where
  host : String
  source : String
  deriving DecidableEq, Repr

/-- Structure `LogHandler` from the lib package: the configured group, stream and
hostname of the adapter. -/
structure LogHandler where
  group : String
  stream : String
  hostname : String
  deriving DecidableEq, Repr

/-- A message pushed by the adapter: group, stream and (enriched) event. -/
structure AdapterMessage where
  group : String
  stream : String
  event : AdapterEvent
  deriving DecidableEq, Repr

/-- Method `(*LogHandler).HandleLog` of the lib package: build a message from the handler's
configured group and stream and the event made from the entry
(`MakeEvent`, external — passed in as `event`), default the host to the
handler's hostname when empty, default the source to the guessed caller
(`GuessCaller`/`GetFuncInfo`, external — passed in as `guessedSource`)
when empty, and push the message onto the queue unconditionally. -/
def HandleLog (h : LogHandler) (event : AdapterEvent)
    (guessedSource : Option String) (queue : List AdapterMessage) :
    List AdapterMessage :=
  let e1 := if event.host.length = 0 then { event with host := h.hostname } else event
  let e2 :=
    if e1.source.length = 0 then
      match guessedSource with
      | some s => { e1 with source := s }
      | none => e1
    else e1
  queue ++ [{ group := h.group, stream := h.stream, event := e2 }]

/-! ## Theorems -/

/-! ### sanitizeStreamName (C4) -/

/-- The two byte replacements of `sanitizeStreamName` fused into one map,
followed by the truncation to 512 bytes. -/
lemma sanitizeStreamName_eq_map_take (name : GoBytes) :
    sanitizeStreamName name =
      (name.map fun b =>
        if b = colonByte then slashByte
        else if b = starByte then slashByte else b).take 512 := by
  have hfuse : ∀ l : GoBytes,
      (l.map fun b => if b = colonByte then slashByte else b).map
        (fun b => if b = starByte then slashByte else b) =
      l.map fun b =>
        if b = colonByte then slashByte
        else if b = starByte then slashByte else b := by
    intro l
    rw [List.map_map]
    apply List.map_congr_left
    intro a _
    simp only [Function.comp, colonByte, starByte, slashByte]
    split_ifs <;> omega
  unfold sanitizeStreamName replaceAllByte
  simp only [hfuse name]
  split
  · rfl
  · next h => exact (List.take_of_length_le (Nat.le_of_not_lt h)).symm

/-- Every byte of the sanitized name is the image of an input byte under
the fused replacement. -/
lemma mem_sanitizeStreamName {b : Nat} {name : GoBytes}
    (hb : b ∈ sanitizeStreamName name) :
    ∃ a ∈ name,
      b = if a = colonByte then slashByte
          else if a = starByte then slashByte else a := by
  rw [sanitizeStreamName_eq_map_take] at hb
  have hb' := List.mem_of_mem_take hb
  obtain ⟨a, ha, rfl⟩ := List.mem_map.1 hb'
  exact ⟨a, ha, rfl⟩

/-- A map that fixes every element of a list leaves the list unchanged. -/
lemma map_eq_self_of_fixed {l : GoBytes} {g : Nat → Nat}
    (h : ∀ b ∈ l, g b = b) : l.map g = l := by
  induction l with
  | nil => rfl
  | cons a t ih =>
    simp only [List.map_cons, h a (List.mem_cons_self a t)]
    rw [ih fun b hb => h b (List.mem_cons_of_mem a hb)]

/-- The sanitized name never contains `':'` or `'*'` bytes. -/
lemma sanitizeStreamName_no_delims {b : Nat} {name : GoBytes}
    (hb : b ∈ sanitizeStreamName name) : b ≠ colonByte ∧ b ≠ starByte := by
  obtain ⟨a, _, rfl⟩ := mem_sanitizeStreamName hb
  simp only [colonByte, starByte, slashByte]
  split_ifs <;> omega

/-- The sanitized name is at most 512 bytes long. -/
lemma sanitizeStreamName_length (name : GoBytes) :
    (sanitizeStreamName name).length ≤ 512 := by
  rw [sanitizeStreamName_eq_map_take, List.length_take]
  exact min_le_left _ _

/-- C4 counterexample: `sanitizeStreamName` does not make its output
ASCII-printable — the non-printable byte 7 (BEL) passes through
unchanged, so the claim that the output is always ASCII-printable is
false at the one-byte input 7. -/
theorem sanitizeStreamName_printable_cex :
    7 ∈ sanitizeStreamName [7] ∧ ¬ asciiPrintable 7 := by decide

/-- C4 (amended): `sanitizeStreamName` is idempotent, its output never
contains `':'` or `'*'`, its output is at most 512 bytes long, and its
output is ASCII-printable whenever its input is (sanitization itself
never introduces a non-printable byte, but neither does it remove one). -/
theorem sanitizeStreamName_props (name : GoBytes) :
    sanitizeStreamName (sanitizeStreamName name) = sanitizeStreamName name ∧
    (∀ b ∈ sanitizeStreamName name, b ≠ colonByte ∧ b ≠ starByte) ∧
    (sanitizeStreamName name).length ≤ 512 ∧
    ((∀ b ∈ name, asciiPrintable b) →
      ∀ b ∈ sanitizeStreamName name, asciiPrintable b) := by
  refine ⟨?_, fun b hb => sanitizeStreamName_no_delims hb,
    sanitizeStreamName_length name, ?_⟩
  · rw [sanitizeStreamName_eq_map_take (sanitizeStreamName name)]
    rw [map_eq_self_of_fixed (fun b hb => by
      obtain ⟨h1, h2⟩ := sanitizeStreamName_no_delims hb
      simp [h1, h2])]
    exact List.take_of_length_le (sanitizeStreamName_length name)
  · intro hall b hb
    obtain ⟨a, ha, rfl⟩ := mem_sanitizeStreamName hb
    have := hall a ha
    simp only [asciiPrintable, slashByte] at this ⊢
    split_ifs <;> omega

/-- Witness for C4: idempotence at a concrete input, and the
printability conjunct instantiated on the all-printable input
`[97, 58, 42]`, whose sanitized form `[97, 47, 47]` contains 47. -/
theorem sanitizeStreamName_props_witness :
    sanitizeStreamName (sanitizeStreamName [97, 58, 42, 7]) =
      sanitizeStreamName [97, 58, 42, 7] ∧
    asciiPrintable 47 :=
  ⟨(sanitizeStreamName_props [97, 58, 42, 7]).1,
    (sanitizeStreamName_props [97, 58, 42]).2.2.2 (by decide) 47 (by decide)⟩

/-! ### newWriterTemplate (C7) -/

/-- Appending a newline increments the trailing-newline count. -/
lemma trailingNewlines_append (l : List Char) :
    trailingNewlines (l ++ ['\n']) = trailingNewlines l + 1 := by
  unfold trailingNewlines
  rw [List.reverse_append]
  simp [List.takeWhile_cons]

/-- A format has the `"\n"` suffix exactly when its trailing-newline
count is positive. -/
lemma isSuffixOf_newline_iff (l : List Char) :
    List.isSuffixOf ['\n'] l = true ↔ 1 ≤ trailingNewlines l := by
  unfold trailingNewlines
  rw [List.isSuffixOf]
  simp only [List.reverse_cons, List.reverse_nil, List.nil_append]
  cases h : l.reverse with
  | nil => simp
  | cons c t =>
    by_cases hc : c = '\n'
    · subst hc
      simp [List.isPrefixOf, List.takeWhile_cons, Nat.succ_le_succ, Nat.zero_le]
    · simp [List.isPrefixOf, List.takeWhile_cons, hc]
      exact fun hcontra => hc hcontra.symm

/-- C7 counterexample: for a caller format that already ends in two
newlines the installed template keeps both, so the template does not end
with exactly one trailing newline for every caller format. -/
theorem newWriterTemplate_exactly_one_cex :
    trailingNewlines (newWriterTemplate ('a' :: '\n' :: '\n' :: [])) = 2 ∧
    trailingNewlines (newWriterTemplate ('a' :: '\n' :: '\n' :: [])) ≠ 1 := by
  decide

/-- C7 (amended): the installed template always ends with a newline; a
single newline is appended exactly when the caller's format did not end
with one; hence whenever the caller's format ends with at most one
newline — in particular when it has none — the installed template ends
with exactly one. -/
theorem newWriterTemplate_trailing_newline (format : List Char) :
    List.isSuffixOf ['\n'] (newWriterTemplate format) = true ∧
    (List.isSuffixOf ['\n'] format = false →
      newWriterTemplate format = format ++ ['\n']) ∧
    (List.isSuffixOf ['\n'] format = true → newWriterTemplate format = format) ∧
    (trailingNewlines format ≤ 1 →
      trailingNewlines (newWriterTemplate format) = 1) := by
  by_cases h : List.isSuffixOf ['\n'] format
  · have h1 : 1 ≤ trailingNewlines format := (isSuffixOf_newline_iff format).1 h
    refine ⟨?_, fun hf => absurd h (by simp [hf]), fun _ => by simp [newWriterTemplate, h], ?_⟩
    · simp [newWriterTemplate, h]
    · intro hle
      simp only [newWriterTemplate, h, if_true]
      omega
  · have h0 : ¬ 1 ≤ trailingNewlines format :=
      fun hc => h ((isSuffixOf_newline_iff format).2 hc)
    have heq : newWriterTemplate format = format ++ ['\n'] := by
      simp [newWriterTemplate, h]
    refine ⟨?_, fun _ => heq, fun ht => absurd ht (by simpa using h), ?_⟩
    · rw [heq, isSuffixOf_newline_iff, trailingNewlines_append]
      omega
    · intro _
      rw [heq, trailingNewlines_append]
      omega

/-- Witness for C7: a concrete format with no trailing newline, whose
installed template ends with exactly one. -/
theorem newWriterTemplate_trailing_newline_witness :
    List.isSuffixOf ['\n'] (newWriterTemplate ('M' :: 'S' :: 'G' :: [])) = true ∧
    trailingNewlines (newWriterTemplate ('M' :: 'S' :: 'G' :: [])) = 1 :=
  ⟨(newWriterTemplate_trailing_newline _).1,
    (newWriterTemplate_trailing_newline ('M' :: 'S' :: 'G' :: [])).2.2.2 (by decide)⟩

/-! ### WriteMessageBatch failure semantics (C1) -/

/-- Writing a batch whose first failure is at message `m`: the writes
before `m` all succeed and extend `written`. -/
lemma WriteMessageBatch_ok_path {α ε : Type} (fails : α → Option ε)
    (flushErr : Option ε) (e : ε) (pre : List α) :
    ∀ (s : WriterSt α) (m : α) (post : List α), (∀ x ∈ pre, fails x = none) →
      fails m = some e →
      WriteMessageBatch fails flushErr s (pre ++ m :: post) =
        ({ dead := true, written := s.written ++ pre }, some e) := by
  induction pre with
  | nil =>
    intro s m post _ hm
    simp [WriteMessageBatch, hm]
  | cons a pre ih =>
    intro s m post hpre hm
    have ha : fails a = none := hpre a (List.mem_cons_self a pre)
    simp only [List.cons_append, WriteMessageBatch, ha, List.append_eq]
    rw [ih { s with written := s.written ++ [a] } m post
      (fun x hx => hpre x (List.mem_cons_of_mem a hx)) hm]
    simp [List.append_assoc]

/-- C1: if the k-th message of a batch is the first to fail, then
`WriteMessageBatch` returns that error, exactly the first k-1 messages
were handed to the backend, the rest of the batch is never attempted
(the result does not depend on it), the writer is marked dead, and a
dead writer behaves distinctly from a fresh one: `Close` on it always
closes the underlying transport and never re-enters the pool, while a
fresh (non-dead) writer with pool room is pooled for reuse. -/
theorem WriteMessageBatch_first_failure {α ε : Type} (fails : α → Option ε)
    (flushErr : Option ε) (s : WriterSt α) (pre : List α) (m : α) (e : ε)
    (hpre : ∀ x ∈ pre, fails x = none) (hm : fails m = some e) :
    (∀ post : List α,
      WriteMessageBatch fails flushErr s (pre ++ m :: post) =
        ({ dead := true, written := s.written ++ pre }, some e)) ∧
    (∀ (ep : Bool) (pool : List (WriterSt α)),
      close ep pool { dead := true, written := s.written ++ pre } =
        (pool, CloseAction.closedBackend)) ∧
    (∀ (w : WriterSt α) (pool : List (WriterSt α)), w.dead = false →
      pool.length < writerPoolCap →
      close true pool w = (pool ++ [w], CloseAction.pooled)) := by
  refine ⟨fun post => WriteMessageBatch_ok_path fails flushErr e pre s m post hpre hm,
    fun ep pool => by simp [close], fun w pool hw hlen => by simp [close, hw, hlen]⟩

/-- Witness for C1: a concrete batch of three messages whose second
write fails; only the first message reaches the backend and the writer
comes out dead. -/
theorem WriteMessageBatch_first_failure_witness :
    WriteMessageBatch (fun n => if n = 2 then some "write error" else none)
        none ⟨false, []⟩ [1, 2, 3] =
      (⟨true, [1]⟩, some "write error") :=
  (WriteMessageBatch_first_failure
    (fun n => if n = 2 then some "write error" else none) none
    ⟨false, []⟩ [1] 2 "write error" (by decide) (by decide)).1 [3]

/-! ### WriteMessage as a single-element batch (C10) -/

/-- C10: for every backend behaviour, writer state and message,
`WriteMessage msg` produces exactly the same state transition and error
as `WriteMessageBatch [msg]`: same write, same flush, same dead-marking,
same returned error. -/
theorem WriteMessage_eq_singleton_batch {α ε : Type} (fails : α → Option ε)
    (flushErr : Option ε) (s : WriterSt α) (m : α) :
    WriteMessage fails flushErr s m = WriteMessageBatch fails flushErr s [m] := by
  unfold WriteMessage
  cases hm : fails m with
  | some e => simp [WriteMessageBatch, hm]
  | none =>
    cases flushErr with
    | some e => simp [WriteMessageBatch, hm]
    | none => simp [WriteMessageBatch, hm]

/-! ### Close, pooling and acquisition (C5) -/

/-- Releasing only healthy writers with pooling enabled fills the pool up
to its capacity and closes the overflow, one backend close per writer
that found the pool full. -/
lemma releaseAll_healthy {α : Type} (ws : List (WriterSt α)) :
    ∀ (pool : List (WriterSt α)) (c : Nat), (∀ u ∈ ws, u.dead = false) →
      pool.length ≤ writerPoolCap →
      (releaseAll true (pool, c) ws).1.length =
          min (pool.length + ws.length) writerPoolCap ∧
      (releaseAll true (pool, c) ws).2 =
          c + (pool.length + ws.length -
            min (pool.length + ws.length) writerPoolCap) := by
  induction ws with
  | nil =>
    intro pool c _ hle
    simp only [releaseAll, List.length_nil, Nat.add_zero]
    omega
  | cons w ws ih =>
    intro pool c hws hle
    have hw : w.dead = false := hws w (List.mem_cons_self w ws)
    have hws' : ∀ u ∈ ws, u.dead = false :=
      fun u hu => hws u (List.mem_cons_of_mem w hu)
    by_cases hroom : pool.length < writerPoolCap
    · have hclose : close true pool w = (pool ++ [w], CloseAction.pooled) := by
        simp [close, hw, hroom]
      simp only [releaseAll, hclose]
      have := ih (pool ++ [w]) c hws' (by simp [List.length_append]; omega)
      simp only [List.length_append, List.length_cons, List.length_nil] at this ⊢
      omega
    · have hclose : close true pool w = (pool, CloseAction.closedBackend) := by
        simp [close, hw, hroom]
      simp only [releaseAll, hclose]
      have := ih pool (c + 1) hws' hle
      simp only [List.length_cons] at this ⊢
      omega

/-- C5: a dead writer always closes its backend on `Close`; a healthy
writer with pooling enabled is offered back to the capacity-100 pool and
closes only when the pool is full; with pooling disabled every release
closes.  Releasing `writerPoolCap + 1` healthy writers into an empty
pool retains exactly `writerPoolCap` of them and closes exactly one, and
acquisition takes pool members before dialing fresh. -/
theorem close_pool_policy {α : Type} (pool : List (WriterSt α))
    (w : WriterSt α) (ws : List (WriterSt α))
    (hws : ∀ u ∈ ws, u.dead = false) (hlen : ws.length = writerPoolCap + 1) :
    (w.dead = true → ∀ ep : Bool,
      close ep pool w = (pool, CloseAction.closedBackend)) ∧
    (w.dead = false → pool.length < writerPoolCap →
      close true pool w = (pool ++ [w], CloseAction.pooled)) ∧
    (w.dead = false → ¬ pool.length < writerPoolCap →
      close true pool w = (pool, CloseAction.closedBackend)) ∧
    (close false pool w = (pool, CloseAction.closedBackend)) ∧
    ((releaseAll true ([], 0) ws).1.length = writerPoolCap ∧
      (releaseAll true ([], 0) ws).2 = 1) ∧
    (∀ (v : WriterSt α) (rest : List (WriterSt α)),
      acquire true (v :: rest) = (rest, AcquireSrc.fromPool v)) ∧
    (acquire true ([] : List (WriterSt α)) = ([], AcquireSrc.fresh)) ∧
    (∀ p : List (WriterSt α), acquire false p = (p, AcquireSrc.fresh)) := by
  refine ⟨fun hd ep => by simp [close, hd],
    fun hd hroom => by simp [close, hd, hroom],
    fun hd hroom => by simp [close, hd, hroom],
    by simp [close],
    ?_, fun v rest => by simp [acquire], by simp [acquire],
    fun p => by simp [acquire]⟩
  have := releaseAll_healthy ws [] 0 hws (by simp)
  rw [hlen] at this
  simp only [List.length_nil, Nat.zero_add] at this
  obtain ⟨h1, h2⟩ := this
  refine ⟨?_, ?_⟩
  · rw [h1]; omega
  · rw [h2]; omega

/-- Witness for C5: releasing 101 concrete healthy writers into an empty
pool retains 100 and closes exactly one. -/
theorem close_pool_policy_witness :
    (releaseAll true (([] : List (WriterSt Unit)), 0)
        (List.replicate 101 ⟨false, []⟩)).1.length = writerPoolCap ∧
    (releaseAll true (([] : List (WriterSt Unit)), 0)
        (List.replicate 101 ⟨false, []⟩)).2 = 1 :=
  (close_pool_policy [] ⟨true, []⟩ (List.replicate 101 ⟨false, []⟩)
    (fun u hu => by rw [List.eq_of_mem_replicate hu])
    (by simp [writerPoolCap])).2.2.2.2.1

/-- A Go string has length zero exactly when it is empty. -/
lemma string_length_eq_zero {s : String} : s.length = 0 ↔ s = "" := by
  constructor
  · intro h
    cases s with
    | mk d =>
      have hd : d = [] := List.length_eq_zero.1 h
      simp [hd]
  · intro h
    simp [h]

/-! ### DialWriter strategy selection (C2) -/

/-- C2: the dial strategy is a pure function of the configured network
and address.  An explicitly configured network is the single candidate,
used verbatim.  Otherwise, for a missing address or one that starts with
`/`, the candidate networks are `unixgram` then `unix`, with the
well-known socket paths `/dev/log`, `/var/run/syslog`, `/var/run/log` as
fallback addresses exactly when no address was configured.  Otherwise
the single candidate network is `tls`, which `dialWriter` turns into a
TLS handshake over a TCP stream — never a plain network socket. -/
theorem DialWriter_strategy (c : DialConfig) :
    (c.network ≠ "" → netopts c = [c.network]) ∧
    (c.network = "" → (c.address = "" ∨ goStartsWith c.address "/" = true) →
      netopts c = ["unixgram", "unix"] ∧
      (c.address = "" →
        addropts c = ["/dev/log", "/var/run/syslog", "/var/run/log"]) ∧
      (c.address ≠ "" → addropts c = [c.address])) ∧
    (c.network = "" → c.address ≠ "" → goStartsWith c.address "/" = false →
      netopts c = ["tls"] ∧ addropts c = [c.address] ∧
      dialScheme "tls" = DialScheme.tlsStream) := by
  refine ⟨?_, ?_, ?_⟩
  · intro hn
    have : c.network.length ≠ 0 := fun h => hn (string_length_eq_zero.1 h)
    simp [netopts, this]
  · intro hn hlocal
    have hn0 : c.network.length = 0 := by simp [hn]
    have hcond : c.address.length = 0 ∨ goStartsWith c.address "/" = true := by
      rcases hlocal with h | h
      · exact Or.inl (by simp [h])
      · exact Or.inr h
    refine ⟨by simp [netopts, hn0, hcond], ?_, ?_⟩
    · intro ha
      have ha0 : c.address.length = 0 := by simp [ha]
      have : goStartsWith (networkAfterNetopts c) "unix" = true := by
        simp [networkAfterNetopts, hn0, ha0, goStartsWith]
      simp [addropts, ha0, this]
    · intro ha
      have ha0 : c.address.length ≠ 0 := fun h => ha (string_length_eq_zero.1 h)
      simp [addropts, ha0]
  · intro hn ha hslash
    have hn0 : c.network.length = 0 := by simp [hn]
    have ha0 : c.address.length ≠ 0 := fun h => ha (string_length_eq_zero.1 h)
    refine ⟨?_, by simp [addropts, ha0], by simp [dialScheme]⟩
    simp [netopts, hn0, ha0, hslash]

/-- Witness for C2: a non-local address selects the TLS candidate, and
the empty configuration selects the unix-socket candidates with the
well-known fallback paths. -/
theorem DialWriter_strategy_witness :
    netopts ⟨"", "logs.example.com:6514"⟩ = ["tls"] ∧
    netopts ⟨"", ""⟩ = ["unixgram", "unix"] ∧
    addropts ⟨"", ""⟩ = ["/dev/log", "/var/run/syslog", "/var/run/log"] := by
  refine ⟨((DialWriter_strategy ⟨"", "logs.example.com:6514"⟩).2.2 rfl
    (by decide) (by decide)).1, ?_, ?_⟩
  · exact ((DialWriter_strategy ⟨"", ""⟩).2.1 rfl (Or.inl rfl)).1
  · exact ((DialWriter_strategy ⟨"", ""⟩).2.1 rfl (Or.inl rfl)).2.1 rfl

/-! ### dialWriter retry and candidate order (C3) -/

/-- C3: connection establishment walks the candidate pairs in order with
at most 3 dial attempts and a 1-second pause between attempts for each
pair.  A pair that fails exactly twice and then succeeds wins on its 3rd
attempt after exactly 2 pauses, and no later candidate pair is ever
attempted; in general the first pair whose dial succeeds ends the search,
a pair that exhausts its 3 attempts passes control to the next pair, and
3 straight failures consume the full attempt budget with 2 pauses. -/
theorem dialWriter_retry_order (ok : String × String → Nat → Bool)
    (p q : String × String) (rest : List (String × String))
    (h1 : ok p 1 = false) (h2 : ok p 2 = false) (h3 : ok p 3 = true) :
    dialOne (ok p) = (some 3, 2) ∧
    connectLoop ok (p :: q :: rest) = ([p], some (p, 3)) ∧
    (∀ (ok' : String × String → Nat → Bool) (r : String × String)
      (ps : List (String × String)) (k sleeps : Nat),
      dialOne (ok' r) = (some k, sleeps) →
      connectLoop ok' (r :: ps) = ([r], some (r, k))) ∧
    (∀ (ok' : String × String → Nat → Bool) (r : String × String)
      (ps : List (String × String)) (sleeps : Nat),
      dialOne (ok' r) = (none, sleeps) →
      connectLoop ok' (r :: ps) =
        ((r :: (connectLoop ok' ps).1), (connectLoop ok' ps).2)) ∧
    (∀ ok₂ : Nat → Bool, ok₂ 1 = false → ok₂ 2 = false → ok₂ 3 = false →
      dialOne ok₂ = (none, 2)) := by
  have hdial : dialOne (ok p) = (some 3, 2) := by
    simp [dialOne, dialRetry, h1, h2, h3]
  refine ⟨hdial, ?_, ?_, ?_, ?_⟩
  · simp [connectLoop, hdial]
  · intro ok' r ps k sleeps hd
    simp [connectLoop, hd]
  · intro ok' r ps sleeps hd
    simp [connectLoop, hd]
  · intro ok₂ g1 g2 g3
    simp [dialOne, dialRetry, g1, g2, g3]

/-- Witness for C3: a concrete pair whose dial succeeds only at the 3rd
attempt wins after 2 pauses without the second candidate being tried. -/
theorem dialWriter_retry_order_witness :
    dialOne ((fun _ a => a == 3) ("unixgram", "/dev/log")) = (some 3, 2) ∧
    connectLoop (fun _ a => a == 3)
        [("unixgram", "/dev/log"), ("unixgram", "/var/run/syslog")] =
      ([("unixgram", "/dev/log")], some (("unixgram", "/dev/log"), 3)) :=
  ⟨(dialWriter_retry_order (fun _ a => a == 3) ("unixgram", "/dev/log")
      ("unixgram", "/var/run/syslog") [] rfl rfl rfl).1,
    (dialWriter_retry_order (fun _ a => a == 3) ("unixgram", "/dev/log")
      ("unixgram", "/var/run/syslog") [] rfl rfl rfl).2.1⟩

/-! ### Wire rendering (C6) -/

/-- C6: the rendering of `(*writer).write` computes the priority value as
`(level - 1) + 8` (10 for level 3), defaults hostname and message id to
`"-"` when empty, and renders the process id as `"-"` when zero and as
its decimal string otherwise. -/
theorem write_rendering (fmtTime : Nat → String) (tag : String)
    (msg : SyslogMsg) :
    (write fmtTime tag msg).PRIVAL = (msg.level - 1) + 8 ∧
    (msg.level = 3 → (write fmtTime tag msg).PRIVAL = 10) ∧
    (msg.host = "" → (write fmtTime tag msg).HOSTNAME = "-") ∧
    (msg.host ≠ "" → (write fmtTime tag msg).HOSTNAME = msg.host) ∧
    (msg.id = "" → (write fmtTime tag msg).MSGID = "-") ∧
    (msg.id ≠ "" → (write fmtTime tag msg).MSGID = msg.id) ∧
    (msg.pid = 0 → (write fmtTime tag msg).PROCID = "-") ∧
    (msg.pid ≠ 0 → (write fmtTime tag msg).PROCID = toString msg.pid) ∧
    (write fmtTime tag msg).GROUP = msg.group ∧
    (write fmtTime tag msg).STREAM = msg.stream ∧
    (write fmtTime tag msg).TAG = tag ∧
    (write fmtTime tag msg).TIMESTAMP = fmtTime msg.time := by
  refine ⟨rfl, fun h => by simp [write, h], ?_, ?_, ?_, ?_, ?_, ?_,
    rfl, rfl, rfl, rfl⟩
  · intro h; simp [write, h]
  · intro h
    have : msg.host.length ≠ 0 := fun hc => h (string_length_eq_zero.1 hc)
    simp [write, this]
  · intro h; simp [write, h]
  · intro h
    have : msg.id.length ≠ 0 := fun hc => h (string_length_eq_zero.1 hc)
    simp [write, this]
  · intro h; simp [write, h]
  · intro h; simp [write, h]

/-- Witness for C6: a concrete message at level 3 with empty hostname,
empty message id and zero pid. -/
theorem write_rendering_witness :
    (write (fun _ => "Jan  2 15:04:05") "tag"
        ⟨"grp", "strm", 3, "", "", 0, 7, "hello"⟩).PRIVAL = 10 ∧
    (write (fun _ => "Jan  2 15:04:05") "tag"
        ⟨"grp", "strm", 3, "", "", 0, 7, "hello"⟩).HOSTNAME = "-" ∧
    (write (fun _ => "Jan  2 15:04:05") "tag"
        ⟨"grp", "strm", 3, "", "", 0, 7, "hello"⟩).MSGID = "-" ∧
    (write (fun _ => "Jan  2 15:04:05") "tag"
        ⟨"grp", "strm", 3, "", "", 0, 7, "hello"⟩).PROCID = "-" :=
  ⟨(write_rendering (fun _ => "Jan  2 15:04:05") "tag"
      ⟨"grp", "strm", 3, "", "", 0, 7, "hello"⟩).2.1 rfl,
    (write_rendering (fun _ => "Jan  2 15:04:05") "tag"
      ⟨"grp", "strm", 3, "", "", 0, 7, "hello"⟩).2.2.1 rfl,
    (write_rendering (fun _ => "Jan  2 15:04:05") "tag"
      ⟨"grp", "strm", 3, "", "", 0, 7, "hello"⟩).2.2.2.2.1 rfl,
    (write_rendering (fun _ => "Jan  2 15:04:05") "tag"
      ⟨"grp", "strm", 3, "", "", 0, 7, "hello"⟩).2.2.2.2.2.2.1 rfl⟩

/-! ### journald getMessage tag policy (C8) -/

/-- C8: a journal record without a (non-empty) `CONTAINER_TAG` yields no
message and no error; a record with a `CONTAINER_TAG` but with both the
configured stream field and the `CONTAINER_ID_FULL` fallback missing
yields the fatal malformed-event error, which is a different outcome
from the silent skip. -/
theorem getMessage_tag_policy (streamName : String) (rec : JournalRecord)
    (g : GoBytes) :
    ((rec "CONTAINER_TAG" = none ∨ rec "CONTAINER_TAG" = some []) →
      getMessage streamName rec = GetMsgResult.skip) ∧
    (rec "CONTAINER_TAG" = some g → g ≠ [] → rec streamName = none →
      rec "CONTAINER_ID_FULL" = none →
      getMessage streamName rec = GetMsgResult.fatal g) ∧
    (∀ t : GoBytes, GetMsgResult.fatal t ≠ GetMsgResult.skip) := by
  refine ⟨?_, ?_, fun t h => by cases h⟩
  · rintro (h | h) <;> simp [getMessage, h]
  · intro htag hne hstream hfull
    have hlen : g.length ≠ 0 := fun hc => hne (List.length_eq_zero.1 hc)
    simp [getMessage, htag, hne, hstream, hfull, hlen]

/-- Witness for C8: a concrete record with only `CONTAINER_TAG` set hits
the fatal error under the default stream field, and a record with no
fields at all is silently skipped. -/
theorem getMessage_tag_policy_witness :
    getMessage "CONTAINER_ID_FULL"
        (fun k => if k = "CONTAINER_TAG" then some [97] else none) =
      GetMsgResult.fatal [97] ∧
    getMessage "CONTAINER_ID_FULL" (fun _ => none) = GetMsgResult.skip :=
  ⟨(getMessage_tag_policy "CONTAINER_ID_FULL"
      (fun k => if k = "CONTAINER_TAG" then some [97] else none) [97]).2.1
      (by decide) (by decide) (by decide) (by decide),
    (getMessage_tag_policy "CONTAINER_ID_FULL" (fun _ => none) []).1
      (Or.inl rfl)⟩

/-! ### Enqueue gating (C9) -/

/-- C9 counterexample: the log-call adapter performs no emptiness check —
a handler configured with empty group and empty stream still enqueues a
message with empty group and empty stream instead of silently dropping
it. -/
theorem HandleLog_empty_enqueued_cex :
    HandleLog ⟨"", "", ""⟩ ⟨"", ""⟩ none [] =
      [{ group := "", stream := "", event := { host := "", source := "" } }] ∧
    HandleLog ⟨"", "", ""⟩ ⟨"", ""⟩ none [] ≠ [] := by
  constructor
  · rfl
  · decide

/-- C9 (amended): the journal-reader producer only yields a message once
its group is non-empty and its stream has been resolved from the
configured field or the `CONTAINER_ID_FULL` fallback, and silently skips
(no message, no error) a record without a non-empty container tag; the
log-call adapter, by contrast, always enqueues exactly one message
carrying its configured group and stream, with no emptiness gate. -/
theorem enqueue_gating (streamName : String) (rec : JournalRecord)
    (h : LogHandler) (event : AdapterEvent) (guessedSource : Option String)
    (queue : List AdapterMessage) :
    (∀ g s : GoBytes, getMessage streamName rec = GetMsgResult.msg g s →
      g ≠ [] ∧ ∃ raw : GoBytes,
        (rec streamName = some raw ∨ rec "CONTAINER_ID_FULL" = some raw) ∧
        s = sanitizeStreamName raw) ∧
    ((rec "CONTAINER_TAG" = none ∨ rec "CONTAINER_TAG" = some []) →
      getMessage streamName rec = GetMsgResult.skip) ∧
    (∃ m : AdapterMessage,
      HandleLog h event guessedSource queue = queue ++ [m] ∧
      m.group = h.group ∧ m.stream = h.stream) := by
  refine ⟨?_, ?_, ?_⟩
  · intro g s hmsg
    cases htag : rec "CONTAINER_TAG" with
    | none => simp [getMessage, htag] at hmsg
    | some t =>
      by_cases ht : t.length = 0
      · simp [getMessage, htag, ht] at hmsg
      · cases hs : rec streamName with
        | some raw =>
          simp [getMessage, htag, ht, hs] at hmsg
          obtain ⟨h1, h2⟩ := hmsg
          subst h1
          subst h2
          exact ⟨fun hc => ht (by simp [hc]), raw, Or.inl rfl, rfl⟩
        | none =>
          cases hfull : rec "CONTAINER_ID_FULL" with
          | some raw =>
            simp [getMessage, htag, ht, hs, hfull] at hmsg
            obtain ⟨h1, h2⟩ := hmsg
            subst h1
            subst h2
            exact ⟨fun hc => ht (by simp [hc]), raw, Or.inr rfl, rfl⟩
          | none => simp [getMessage, htag, ht, hs, hfull] at hmsg
  · rintro (hx | hx) <;> simp [getMessage, hx]
  · exact ⟨_, rfl, rfl, rfl⟩

/-- Witness for C9: the journal path on a concrete record resolving its
stream through the fallback field, and the silent skip on the empty
record. -/
theorem enqueue_gating_witness :
    getMessage "STREAM_FIELD" (fun _ => none) = GetMsgResult.skip :=
  (enqueue_gating "STREAM_FIELD" (fun _ => none) ⟨"g", "s", "h"⟩ ⟨"", ""⟩
    none []).2.1 (Or.inl rfl)

end EcsLogs
